import Mathlib

/-!
Shallow embedding of `lambdarequesttransformer.go`, a Traefik middleware that
rewrites an inbound HTTP request into an AWS Lambda invocation `POST`.

Go strings are modelled as Lean `String`, byte slices as `List Nat` (each
element a byte value `< 256`), `http.Header` as an association list from
(canonical) header name to the list of its values, and the impure inputs of
`ServeHTTP` (the JSON marshaller, the random source, the clock) as explicit
parameters.
-/

namespace LambdaRT

/-- `http.Header`: map from header name to its list of values.  Go stores the
map with canonicalised keys; requests delivered by the Go HTTP server keep one
entry per name. -/
abbrev Headers := List (String × List String)

/-- Look a key up in the header map (Go map indexing `h[key]`). -/
def lookupHeader (hs : Headers) (k : String) : Option (List String) :=
  (hs.find? (fun p => p.1 = k)).map (fun p => p.2)

/-- Character codes allowed in a MIME header token
(`!#$%&'*+-.^_`|~`, digits and letters), after
`net/textproto.validHeaderFieldByte`. -/
def isTokenChar (c : Char) : Bool :=
  c.isAlphanum ||
    [33, 35, 36, 37, 38, 39, 42, 43, 45, 46, 94, 95, 96, 124, 126].contains c.toNat

/-- The case-mangling loop of `textproto.canonicalMIMEHeaderKey`: uppercase a
letter at the start or after a `-`, lowercase every other letter. -/
def canonChars : Bool → List Char → List Char
  | _, [] => []
  | upper, c :: cs =>
    let c' : Char :=
      if upper && c.isLower then c.toUpper
      else if !upper && c.isUpper then c.toLower
      else c
    c' :: canonChars (c' = '-') cs

/-- `textproto.CanonicalMIMEHeaderKey`: returns the key unchanged when it
holds a non-token character, otherwise canonicalises its case. -/
def canonicalKey (s : String) : String :=
  if s.data.all isTokenChar then String.mk (canonChars true s.data) else s

/-- `http.Header.Get`: canonicalise the key, return the first value, or the
empty string when the key is absent or has no values. -/
def headerGet (hs : Headers) (k : String) : String :=
  match lookupHeader hs (canonicalKey k) with
  | some (v :: _) => v
  | _ => ""

/-- `http.Header.Set`: canonicalise the key and bind it to the single-element
value list, replacing any existing entry. -/
def headerSet (hs : Headers) (k v : String) : Headers :=
  let ck := canonicalKey k
  if hs.any (fun p => p.1 = ck) then
    hs.map (fun p => if p.1 = ck then (ck, [v]) else p)
  else
    hs ++ [(ck, [v])]

/-- The header-folding loop of `ServeHTTP` (lines 47–50): join each name's
values with a comma (`strings.Join(values, ",")`). -/
def foldHeaders (hs : Headers) : List (String × String) :=
  hs.map (fun p => (p.1, String.intercalate "," p.2))

/-- Index of the first occurrence of a character in a character list. -/
def idxOfChar (c : Char) : List Char → Option Nat
  | [] => none
  | x :: xs => if x = c then some 0 else (idxOfChar c xs).map (fun i => i + 1)

/-- `strings.Index(s, c)` for a single-character needle: index of the first
occurrence, as an `Option` instead of `-1`. -/
def stringIndexChar (s : String) (c : Char) : Option Nat :=
  idxOfChar c s.data

/-- `strings.Split(s, sep)` for a single-character separator: splits at every
occurrence and keeps empty fields, so the result is never the empty list. -/
def splitOnChar (c : Char) : List Char → List (List Char)
  | [] => [[]]
  | x :: xs =>
    if x = c then [] :: splitOnChar c xs
    else
      match splitOnChar c xs with
      | r :: rs => (x :: r) :: rs
      | [] => [[x]]

/-- The host-splitting block of `ServeHTTP` (lines 68–79): strip everything
from the first `:` to get the domain name, then take the first dot-separated
label as the prefix when there is more than one label, else the whole domain
name. -/
def domainSplit (origHost : String) : String × String :=
  let domainName : String :=
    match stringIndexChar origHost ':' with
    | some i => String.mk (origHost.data.take i)
    | none => origHost
  let domainPrefix : String :=
    match splitOnChar '.' domainName.data with
    | p :: _ :: _ => String.mk p
    | _ => domainName
  (domainName, domainPrefix)

/-- `net.SplitHostPort`: split `host:port` (or `[host]:port`) at the last
colon; fail when there is no colon.  Only the success/failure split and the
host half matter to `ServeHTTP`; the finer error cases of the Go function all
land in `none` here. -/
def splitHostPort (s : String) : Option (String × String) :=
  match (s.data.reverse.findIdx? (fun x => x = ':')) with
  | none => none
  | some ri =>
    let i := s.data.length - 1 - ri
    let host := s.data.take i
    let port := s.data.drop (i + 1)
    let host' :=
      match host with
      | '[' :: rest => if rest.getLast? = some ']' then rest.dropLast else host
      | _ => host
    some (String.mk host', String.mk port)

/-- The client-IP block of `ServeHTTP` (lines 53–58): host half of the remote
address when it parses as `host:port`, the whole string otherwise. -/
def clientIPOf (remoteAddr : String) : String :=
  match splitHostPort remoteAddr with
  | some (ip, _) => ip
  | none => remoteAddr

/-! ### `generateUUID` (lines 143–158) -/

/-- One lowercase hex digit, as printed by `fmt`'s `%x` verb. -/
def hexDigit (n : Nat) : Char :=
  if n < 10 then Char.ofNat (48 + n) else Char.ofNat (87 + n)

/-- The two hex digits `%x` prints for one byte. -/
def byteHex (n : Nat) : List Char :=
  [hexDigit (n / 16), hexDigit (n % 16)]

/-- `b[i] = byte(t >> (i * 8))` of the fallback branch: arithmetic right
shift of the int64 timestamp, truncated to a byte. -/
def timeByte (t : Int) (i : Nat) : Nat :=
  ((t.fdiv (2 ^ (i * 8))) % 256).toNat

/-- `b[6] = (b[6] & 0x0F) | 0x40`: force the version nibble to `4`. -/
def setVersionBits (n : Nat) : Nat := (n.land 15).lor 64

/-- `b[8] = (b[8] & 0x3F) | 0x80`: force the variant bits to `10`. -/
def setVariantBits (n : Nat) : Nat := (n.land 63).lor 128

/-- The character list printed by
`fmt.Sprintf("%08x-%04x-%04x-%04x-%012x", b[0:4], b[4:6], b[6:8], b[8:10],
b[10:16])` after the version and variant bits are forced: `%x` renders each
byte as two lowercase hex digits. -/
def uuidChars (b : Fin 16 → Nat) : List Char :=
  byteHex (b 0) ++ byteHex (b 1) ++ byteHex (b 2) ++ byteHex (b 3) ++ ['-'] ++
  byteHex (b 4) ++ byteHex (b 5) ++ ['-'] ++
  byteHex (setVersionBits (b 6)) ++ byteHex (b 7) ++ ['-'] ++
  byteHex (setVariantBits (b 8)) ++ byteHex (b 9) ++ ['-'] ++
  byteHex (b 10) ++ byteHex (b 11) ++ byteHex (b 12) ++ byteHex (b 13) ++
  byteHex (b 14) ++ byteHex (b 15)

/-- `generateUUID`: 16 bytes from the random source when it succeeds
(`randOk`), else 16 bytes of the current `UnixNano` timestamp; force the
version and variant bits; print as `%08x-%04x-%04x-%04x-%012x`. -/
def generateUUID (randOk : Bool) (rb : Fin 16 → Fin 256) (t : Int) : String :=
  let b : Fin 16 → Nat := if randOk then fun i => (rb i).val else fun i => timeByte t i.val
  String.mk (uuidChars b)

/-! ### Timestamp derivation (lines 85–87)

The captured instant is `now : Nat`, the non-negative `UnixNano` value of the
wall clock.  `now.Format(time.RFC3339)` renders the whole seconds of that
instant in UTC; `timeEpoch` is `UnixNano() / 1e6`. -/

/-- Decimal rendering left-padded with zeros, as `%02d`/`%04d` print. -/
def padNum (w n : Nat) : String :=
  let s := toString n
  String.mk (List.replicate (w - s.length) '0') ++ s

/-- Gregorian date of a day count since 1970-01-01 (the calendar conversion
inside Go's `Time.Format`, in days-from-civil form). -/
def civilFromDays (z : Nat) : Nat × Nat × Nat :=
  let z' := z + 719468
  let era := z' / 146097
  let doe := z' % 146097
  let yoe := (doe - doe / 1460 + doe / 36524 - doe / 146097) / 365
  let y := yoe + era * 400
  let doy := doe - (365 * yoe + yoe / 4 - yoe / 100)
  let mp := (5 * doy + 2) / 153
  let d := doy - (153 * mp + 2) / 5 + 1
  let m := if mp < 10 then mp + 3 else mp - 9
  (if m ≤ 2 then y + 1 else y, m, d)

/-- RFC 3339 rendering (UTC, `Z` designator) of a Unix second. -/
def rfc3339OfSecond (sec : Nat) : String :=
  let days := sec / 86400
  let rem := sec % 86400
  match civilFromDays days with
  | (y, m, d) =>
    padNum 4 y ++ "-" ++ padNum 2 m ++ "-" ++ padNum 2 d ++ "T" ++
    padNum 2 (rem / 3600) ++ ":" ++ padNum 2 (rem % 3600 / 60) ++ ":" ++
    padNum 2 (rem % 60) ++ "Z"

/-- `time.Now().UTC().Format(time.RFC3339)`: the RFC3339 layout has no
fractional second, so only `now`'s whole seconds are rendered. -/
def formatRFC3339 (now : Nat) : String :=
  rfc3339OfSecond (now / 1000000000)

/-- `now.UnixNano() / 1e6`. -/
def timeEpochOf (now : Nat) : Int :=
  ((now : Int)) / 1000000

/-! ### The request and the invocation event -/

/-- The parts of `*http.Request` that `ServeHTTP` reads or writes. -/
structure Request where
  method : String
  urlPath : String
  urlRawQuery : String
  host : String
  remoteAddr : String
  proto : String
  headers : Headers
  body : List Nat
  contentLength : Int
  transferEncoding : List String
  requestURI : String
deriving Repr, DecidableEq

/-- The `http` sub-document of `requestContext`. -/
structure HttpInfo where
  method : String
  path : String
  protocol : String
  sourceIp : String
  userAgent : String
deriving Repr, DecidableEq

/-- The `requestContext` document. -/
structure RequestContext where
  accountId : String
  apiId : String
  domainName : String
  domainPrefix : String
  http : HttpInfo
  requestId : String
  routeKey : String
  stage : String
  time : String
  timeEpoch : Int
deriving Repr, DecidableEq

/-- The Invocation Event document built by `ServeHTTP` (lines 90–118). -/
structure Event where
  version : String
  type : String
  routeKey : String
  rawPath : String
  rawQueryString : String
  headers : List (String × String)
  requestContext : RequestContext
  body : String
  isBase64Encoded : Bool
  identitySource : List String
deriving Repr, DecidableEq

/-- Lines 41–118 of `ServeHTTP`: snapshot the request and assemble the event.
`requestId` is the already-generated UUID, `now` the captured instant. -/
def buildEvent (now : Nat) (requestId : String) (req : Request) : Event :=
  let origMethod := req.method
  let origPath := req.urlPath
  let origQuery := req.urlRawQuery
  let origHost := req.host
  let headersMap := foldHeaders req.headers
  let clientIP := clientIPOf req.remoteAddr
  let userAgent := headerGet req.headers "User-Agent"
  let sessionID := headerGet req.headers "x-session-id"
  let identitySrc : List String := if sessionID ≠ "" then [sessionID] else []
  let dn := domainSplit origHost
  let timeStr := formatRFC3339 now
  let timeEpoch := timeEpochOf now
  { version := "2.0"
    type := "REQUEST"
    routeKey := origMethod ++ " " ++ origPath
    rawPath := origPath
    rawQueryString := origQuery
    headers := headersMap
    requestContext :=
      { accountId := "local"
        apiId := "local"
        domainName := dn.1
        domainPrefix := dn.2
        http :=
          { method := origMethod
            path := origPath
            protocol := req.proto
            sourceIp := clientIP
            userAgent := userAgent }
        requestId := requestId
        routeKey := origMethod ++ " " ++ origPath
        stage := "local"
        time := timeStr
        timeEpoch := timeEpoch }
    body := ""
    isBase64Encoded := false
    identitySource := identitySrc }

/-- Outcome of one `ServeHTTP` call: either `http.Error` was written and the
(unchanged) request dropped, or the rewritten request was handed to
`next.ServeHTTP`. -/
inductive ServeResult where
  | errored (status : Nat) (msg : String) (finalReq : Request)
  | forwarded (finalReq : Request)
deriving Repr, DecidableEq

/-- Lines 127–136: replace the body with the marshalled JSON, fix the length
headers, force `POST`, clear chunked transfer, set the invocation path. -/
def rewriteRequest (req : Request) (jsonData : List Nat) : Request :=
  { req with
    body := jsonData
    contentLength := (jsonData.length : Int)
    headers :=
      headerSet (headerSet req.headers "Content-Type" "application/json")
        "Content-Length" (toString jsonData.length)
    method := "POST"
    transferEncoding := []
    requestURI := "/2015-03-31/functions/function/invocations" }

/-- `ServeHTTP` (lines 39–140).  `marshal` is `json.Marshal` restricted to
event documents, `randOk`/`rb`/`t` feed `generateUUID`, `now` is the captured
instant. -/
def serveHTTP (marshal : Event → Except String (List Nat))
    (randOk : Bool) (rb : Fin 16 → Fin 256) (t : Int) (now : Nat)
    (req : Request) : ServeResult :=
  let event := buildEvent now (generateUUID randOk rb t) req
  match marshal event with
  | .error e => .errored 500 ("JSON marshal error: " ++ e) req
  | .ok jsonData => .forwarded (rewriteRequest req jsonData)

/-! ### Lemmas about the header map -/

theorem find?_map_replace (ck v n : String) (hs : Headers) (hne : n ≠ ck) :
    ((hs.map (fun p => if p.1 = ck then (ck, [v]) else p)).find? (fun p => p.1 = n)) =
      hs.find? (fun p => p.1 = n) := by
  induction hs with
  | nil => rfl
  | cons p hs ih =>
    by_cases hp : p.1 = ck
    · have hpn : ¬ (p.1 = n) := fun h => hne (h ▸ hp ▸ rfl)
      simp only [List.map_cons, hp, if_true, List.find?_cons]
      simp [hne.symm, hpn, ih]
    · simp only [List.map_cons, hp, if_false, List.find?_cons]
      by_cases hn : p.1 = n
      · simp [hn]
      · simp [hn, ih]

theorem find?_map_replace_self (ck v : String) (hs : Headers)
    (hany : hs.any (fun p => p.1 = ck) = true) :
    ((hs.map (fun p => if p.1 = ck then (ck, [v]) else p)).find? (fun p => p.1 = ck)) =
      some (ck, [v]) := by
  induction hs with
  | nil => simp at hany
  | cons p hs ih =>
    by_cases hp : p.1 = ck
    · simp [hp, List.find?_cons]
    · simp only [List.map_cons, hp, if_false, List.find?_cons]
      simp only [List.any_cons, hp] at hany
      simp [hp, ih (by simpa using hany)]

theorem lookupHeader_headerSet (hs : Headers) (k v n : String) :
    lookupHeader (headerSet hs k v) n =
      if n = canonicalKey k then some [v] else lookupHeader hs n := by
  unfold headerSet lookupHeader
  by_cases hany : hs.any (fun p => p.1 = canonicalKey k)
  · simp only [hany, if_true]
    by_cases hn : n = canonicalKey k
    · subst hn
      rw [find?_map_replace_self _ _ _ hany]
      simp
    · rw [find?_map_replace _ _ _ _ hn]
      simp [hn]
  · have hb : hs.any (fun p => p.1 = canonicalKey k) = false := by
      cases h : hs.any (fun p => p.1 = canonicalKey k) with
      | false => rfl
      | true => exact absurd h hany
    have hnone : hs.find? (fun p => p.1 = canonicalKey k) = none := by
      rw [List.find?_eq_none]
      rw [List.any_eq_false] at hb
      exact hb
    simp only [hb, Bool.false_eq_true, if_false, List.find?_append]
    by_cases hn : n = canonicalKey k
    · subst hn
      rw [hnone]
      simp
    · have hkn : ¬ (canonicalKey k = n) := fun h => hn h.symm
      have htail : ([((canonicalKey k), [v])].find? (fun p => p.1 = n)) = none := by
        simp [List.find?_cons, hkn]
      rw [htail, Option.or_none]
      simp [hn]

/-- `headerGet` after `headerSet` with the same key yields the set value. -/
theorem headerGet_headerSet_self (hs : Headers) (k v : String) :
    headerGet (headerSet hs k v) k = v := by
  unfold headerGet
  rw [lookupHeader_headerSet]
  simp

/-- `headerGet` after `headerSet` with a key of a different canonical form is
unchanged. -/
theorem headerGet_headerSet_ne (hs : Headers) (k v n : String)
    (h : canonicalKey n ≠ canonicalKey k) :
    headerGet (headerSet hs k v) n = headerGet hs n := by
  unfold headerGet
  rw [lookupHeader_headerSet]
  simp [h]

/-! ### Concrete inputs used by witnesses and counterexamples -/

/-- A representative inbound request. -/
def sampleReq : Request :=
  { method := "GET"
    urlPath := "/widgets"
    urlRawQuery := "a=1"
    host := "api.example.com:8443"
    remoteAddr := "10.0.0.7:5123"
    proto := "HTTP/1.1"
    headers := [("User-Agent", ["curl/8.0"]), ("X-Session-Id", ["sess-42"]),
                ("Accept", ["text/html", "application/json"])]
    body := []
    contentLength := 0
    transferEncoding := ["chunked"]
    requestURI := "/widgets?a=1" }

/-- A request whose `x-session-id` header is present with an empty first
value. -/
def reqEmptySession : Request :=
  { method := "GET"
    urlPath := "/"
    urlRawQuery := ""
    host := "localhost"
    remoteAddr := "127.0.0.1:9"
    proto := "HTTP/1.1"
    headers := [("X-Session-Id", [""])]
    body := []
    contentLength := 0
    transferEncoding := []
    requestURI := "/" }

/-- A request whose `x-session-id` header carries two values. -/
def reqMultiSession : Request :=
  { reqEmptySession with headers := [("X-Session-Id", ["sess-a", "sess-b"])] }

theorem canonicalKey_contentType : canonicalKey "Content-Type" = "Content-Type" := by decide

theorem canonicalKey_contentLength : canonicalKey "Content-Length" = "Content-Length" := by decide

/-- Unfolding equation of `serveHTTP`. -/
theorem serveHTTP_eq (marshal : Event → Except String (List Nat)) (randOk : Bool)
    (rb : Fin 16 → Fin 256) (t : Int) (now : Nat) (req : Request) :
    serveHTTP marshal randOk rb t now req =
      match marshal (buildEvent now (generateUUID randOk rb t) req) with
      | .error e => .errored 500 ("JSON marshal error: " ++ e) req
      | .ok jsonData => .forwarded (rewriteRequest req jsonData) := rfl

/-! ### Claim C1 -/

/-- C1: on the success path the rewritten request forwarded to the next
handler has method `POST`, target path (`RequestURI`)
`/2015-03-31/functions/function/invocations`, `Content-Type:
application/json`, a `Content-Length` header and `ContentLength` field equal
to the byte length of the marshalled envelope, chunked transfer-encoding
cleared, and the marshalled envelope as body. -/
theorem serveHTTP_success_rewrite
    (marshal : Event → Except String (List Nat)) (randOk : Bool)
    (rb : Fin 16 → Fin 256) (t : Int) (now : Nat) (req : Request)
    (jsonData : List Nat)
    (hok : marshal (buildEvent now (generateUUID randOk rb t) req) = .ok jsonData) :
    serveHTTP marshal randOk rb t now req = .forwarded (rewriteRequest req jsonData) ∧
    (rewriteRequest req jsonData).method = "POST" ∧
    (rewriteRequest req jsonData).requestURI = "/2015-03-31/functions/function/invocations" ∧
    headerGet (rewriteRequest req jsonData).headers "Content-Type" = "application/json" ∧
    headerGet (rewriteRequest req jsonData).headers "Content-Length" =
      toString jsonData.length ∧
    (rewriteRequest req jsonData).contentLength = (jsonData.length : Int) ∧
    (rewriteRequest req jsonData).transferEncoding = [] ∧
    (rewriteRequest req jsonData).body = jsonData := by
  refine ⟨?_, rfl, rfl, ?_, ?_, rfl, rfl, rfl⟩
  · rw [serveHTTP_eq, hok]
  · show headerGet (headerSet (headerSet req.headers "Content-Type" "application/json")
      "Content-Length" (toString jsonData.length)) "Content-Type" = "application/json"
    rw [headerGet_headerSet_ne _ _ _ _ (by decide), headerGet_headerSet_self]
  · exact headerGet_headerSet_self _ _ _

/-- Witness for C1 at a concrete request and marshaller. -/
theorem serveHTTP_success_rewrite_witness :
    serveHTTP (fun _ => .ok [123, 125]) true (fun _ => 0) 0 0 sampleReq =
      .forwarded (rewriteRequest sampleReq [123, 125]) ∧
    (rewriteRequest sampleReq [123, 125]).method = "POST" :=
  have h := serveHTTP_success_rewrite (fun _ => .ok [123, 125]) true (fun _ => 0) 0 0
    sampleReq [123, 125] rfl
  ⟨h.1, h.2.1⟩

/-! ### Claim C2 -/

/-- C2: both `routeKey` fields of the envelope are the original method and
path joined by one space, as are `http.method` and `http.path`; they are
built from the request as it arrived, while the request later forwarded has
its method overridden to `POST`. -/
theorem routeKey_original
    (marshal : Event → Except String (List Nat)) (randOk : Bool)
    (rb : Fin 16 → Fin 256) (t : Int) (now : Nat) (req : Request)
    (jsonData : List Nat)
    (hok : marshal (buildEvent now (generateUUID randOk rb t) req) = .ok jsonData) :
    (buildEvent now (generateUUID randOk rb t) req).routeKey =
      req.method ++ " " ++ req.urlPath ∧
    (buildEvent now (generateUUID randOk rb t) req).requestContext.routeKey =
      req.method ++ " " ++ req.urlPath ∧
    (buildEvent now (generateUUID randOk rb t) req).requestContext.http.method = req.method ∧
    (buildEvent now (generateUUID randOk rb t) req).requestContext.http.path = req.urlPath ∧
    serveHTTP marshal randOk rb t now req = .forwarded (rewriteRequest req jsonData) ∧
    (rewriteRequest req jsonData).method = "POST" := by
  refine ⟨rfl, rfl, rfl, rfl, ?_, rfl⟩
  rw [serveHTTP_eq, hok]

/-- Witness for C2 at a concrete request and marshaller. -/
theorem routeKey_original_witness :
    (buildEvent 0 (generateUUID true (fun _ => 0) 0) sampleReq).routeKey = "GET /widgets" :=
  (routeKey_original (fun _ => .ok []) true (fun _ => 0) 0 0 sampleReq [] rfl).1

/-! ### Claim C7 -/

/-- C7: `ServeHTTP` answers the caller with status 500 and a diagnostic and
skips the next handler exactly when marshalling fails, leaving the request
unchanged; when marshalling succeeds it always forwards the rewritten
request as its last action. -/
theorem serveHTTP_error_iff
    (marshal : Event → Except String (List Nat)) (randOk : Bool)
    (rb : Fin 16 → Fin 256) (t : Int) (now : Nat) (req : Request) :
    (∀ e, marshal (buildEvent now (generateUUID randOk rb t) req) = .error e →
      serveHTTP marshal randOk rb t now req =
        .errored 500 ("JSON marshal error: " ++ e) req) ∧
    (∀ d, marshal (buildEvent now (generateUUID randOk rb t) req) = .ok d →
      serveHTTP marshal randOk rb t now req = .forwarded (rewriteRequest req d)) ∧
    (∀ s m r, serveHTTP marshal randOk rb t now req = .errored s m r →
      s = 500 ∧ r = req ∧
      ∃ e, marshal (buildEvent now (generateUUID randOk rb t) req) = .error e ∧
        m = "JSON marshal error: " ++ e) ∧
    (∀ r, serveHTTP marshal randOk rb t now req = .forwarded r →
      ∃ d, marshal (buildEvent now (generateUUID randOk rb t) req) = .ok d ∧
        r = rewriteRequest req d) := by
  cases h : marshal (buildEvent now (generateUUID randOk rb t) req) with
  | error e =>
    refine ⟨fun e' he' => ?_, fun d hd => ?_, fun s m r hr => ?_, fun r hr => ?_⟩
    · injection he' with hh
      subst hh
      rw [serveHTTP_eq, h]
    · exact Except.noConfusion hd
    · rw [serveHTTP_eq, h] at hr
      injection hr with h1 h2 h3
      exact ⟨h1.symm, h3.symm, e, rfl, h2.symm⟩
    · rw [serveHTTP_eq, h] at hr
      exact ServeResult.noConfusion hr
  | ok d =>
    refine ⟨fun e' he' => ?_, fun d' hd' => ?_, fun s m r hr => ?_, fun r hr => ?_⟩
    · exact Except.noConfusion he'
    · injection hd' with hh
      subst hh
      rw [serveHTTP_eq, h]
    · rw [serveHTTP_eq, h] at hr
      exact ServeResult.noConfusion hr
    · rw [serveHTTP_eq, h] at hr
      injection hr with h1
      exact ⟨d, rfl, h1.symm⟩

/-- Witness for C7: a failing marshaller yields the 500 diagnostic and the
untouched request. -/
theorem serveHTTP_error_iff_witness :
    serveHTTP (fun _ => .error "boom") true (fun _ => 0) 0 0 sampleReq =
      .errored 500 ("JSON marshal error: " ++ "boom") sampleReq :=
  (serveHTTP_error_iff (fun _ => .error "boom") true (fun _ => 0) 0 0 sampleReq).1
    "boom" rfl

/-! ### Claim C9 -/

/-- C9: on the success path only `Body`, `ContentLength`, `Method`,
`TransferEncoding`, `RequestURI` and the `Content-Type`/`Content-Length`
headers change; `URL.Path`, `URL.RawQuery`, `Host`, `RemoteAddr`, `Proto`
and every other header of the forwarded request are exactly the arriving
values. -/
theorem serveHTTP_frame
    (marshal : Event → Except String (List Nat)) (randOk : Bool)
    (rb : Fin 16 → Fin 256) (t : Int) (now : Nat) (req : Request)
    (jsonData : List Nat)
    (hok : marshal (buildEvent now (generateUUID randOk rb t) req) = .ok jsonData) :
    ∃ r', serveHTTP marshal randOk rb t now req = .forwarded r' ∧
      r'.urlPath = req.urlPath ∧
      r'.urlRawQuery = req.urlRawQuery ∧
      r'.host = req.host ∧
      r'.remoteAddr = req.remoteAddr ∧
      r'.proto = req.proto ∧
      (∀ n, n ≠ "Content-Type" → n ≠ "Content-Length" →
        lookupHeader r'.headers n = lookupHeader req.headers n) := by
  refine ⟨rewriteRequest req jsonData, ?_, rfl, rfl, rfl, rfl, rfl, ?_⟩
  · rw [serveHTTP_eq, hok]
  · intro n hct hcl
    show lookupHeader (headerSet (headerSet req.headers "Content-Type" "application/json")
      "Content-Length" (toString jsonData.length)) n = lookupHeader req.headers n
    rw [lookupHeader_headerSet, lookupHeader_headerSet,
      canonicalKey_contentLength, canonicalKey_contentType]
    simp [hct, hcl]

/-- Witness for C9: at a concrete request the untouched fields survive. -/
theorem serveHTTP_frame_witness :
    ∃ r', serveHTTP (fun _ => .ok [123, 125]) true (fun _ => 0) 0 0 sampleReq =
        .forwarded r' ∧
      r'.urlPath = sampleReq.urlPath ∧
      r'.urlRawQuery = sampleReq.urlRawQuery ∧
      r'.host = sampleReq.host ∧
      r'.remoteAddr = sampleReq.remoteAddr ∧
      r'.proto = sampleReq.proto ∧
      (∀ n, n ≠ "Content-Type" → n ≠ "Content-Length" →
        lookupHeader r'.headers n = lookupHeader sampleReq.headers n) :=
  serveHTTP_frame (fun _ => .ok [123, 125]) true (fun _ => 0) 0 0 sampleReq [123, 125] rfl

/-! ### Claim C3 -/

/-- C3 counterexample: a header name with an empty value list is kept in the
envelope's header map, bound to the empty string — it is not omitted as the
claim states. -/
theorem foldHeaders_keeps_empty_value :
    foldHeaders [("X-Demo", [])] = [("X-Demo", "")] := rfl

/-- C3 (amended): each header entry folds to its values joined by single
commas in their original order, and an entry with an empty value list folds
to the empty string. -/
theorem foldHeaders_joins (hs : Headers) (n : String) (vs : List String)
    (h : (n, vs) ∈ hs) :
    (n, String.intercalate "," vs) ∈ foldHeaders hs ∧
    (vs = [] → (n, "") ∈ foldHeaders hs) := by
  constructor
  · exact List.mem_map.mpr ⟨(n, vs), h, rfl⟩
  · intro hvs
    subst hvs
    exact List.mem_map.mpr ⟨(n, []), h, rfl⟩

/-- Witness for C3 (amended): three values `a`, `b`, `c` fold to `"a,b,c"`. -/
theorem foldHeaders_joins_witness :
    ("X-Many", "a,b,c") ∈ foldHeaders [("X-Many", ["a", "b", "c"])] := by
  have h := (foldHeaders_joins [("X-Many", ["a", "b", "c"])] "X-Many" ["a", "b", "c"]
    (by simp)).1
  simpa using h

/-! ### Claim C4 -/

theorem splitOnChar_spec (c : Char) (l : List Char) :
    ∃ r rs, splitOnChar c l = r :: rs ∧
      r = l.takeWhile (fun x => x ≠ c) ∧
      (rs = [] ↔ c ∉ l) := by
  induction l with
  | nil => exact ⟨[], [], rfl, rfl, by simp⟩
  | cons x xs ih =>
    obtain ⟨r', rs', hsplit, hr', hrs'⟩ := ih
    by_cases hx : x = c
    · refine ⟨[], splitOnChar c xs, ?_, ?_, ?_⟩
      · simp [splitOnChar, hx]
      · simp [List.takeWhile_cons, hx]
      · rw [hsplit]
        simp [hx]
    · refine ⟨x :: r', rs', ?_, ?_, ?_⟩
      · simp [splitOnChar, hx, hsplit]
      · simp [List.takeWhile_cons, hx, hr']
      · rw [hrs']
        constructor
        · intro hni hmem
          rcases List.mem_cons.mp hmem with heq | hmem2
          · exact hx heq.symm
          · exact hni hmem2
        · intro hni hmem
          exact hni (List.mem_cons_of_mem x hmem)

theorem takeWhile_ne_cons (c x : Char) (xs : List Char) (hx : ¬ x = c) :
    (x :: xs).takeWhile (fun y => y ≠ c) = x :: xs.takeWhile (fun y => y ≠ c) := by
  rw [List.takeWhile_cons_of_pos]
  simp [hx]

theorem take_idxOfChar_eq_takeWhile (c : Char) (l : List Char) :
    (match idxOfChar c l with
      | some i => l.take i
      | none => l) = l.takeWhile (fun x => x ≠ c) := by
  induction l with
  | nil => rfl
  | cons x xs ih =>
    by_cases hx : x = c
    · simp [idxOfChar, hx]
    · simp only [idxOfChar, if_neg hx]
      cases hfind : idxOfChar c xs with
      | none =>
        rw [hfind] at ih
        show x :: xs = (x :: xs).takeWhile (fun y => y ≠ c)
        rw [takeWhile_ne_cons c x xs hx]
        exact congrArg (x :: ·) ih
      | some i =>
        rw [hfind] at ih
        show x :: xs.take i = (x :: xs).takeWhile (fun y => y ≠ c)
        rw [takeWhile_ne_cons c x xs hx]
        exact congrArg (x :: ·) ih

/-- C4: the envelope's `domainName` is the `Host` value with everything from
the first colon on removed (the whole host when it has no colon), and
`domainPrefix` is the part of `domainName` before its first dot when a dot is
present and the whole `domainName` otherwise. -/
theorem domain_fields (now : Nat) (rid : String) (req : Request) :
    (buildEvent now rid req).requestContext.domainName =
      String.mk (req.host.data.takeWhile (fun x => x ≠ ':')) ∧
    ('.' ∈ (buildEvent now rid req).requestContext.domainName.data →
      (buildEvent now rid req).requestContext.domainPrefix =
        String.mk
          ((buildEvent now rid req).requestContext.domainName.data.takeWhile
            (fun x => x ≠ '.'))) ∧
    ('.' ∉ (buildEvent now rid req).requestContext.domainName.data →
      (buildEvent now rid req).requestContext.domainPrefix =
        (buildEvent now rid req).requestContext.domainName) := by
  have hdn : (buildEvent now rid req).requestContext.domainName =
      (domainSplit req.host).1 := rfl
  have hdp : (buildEvent now rid req).requestContext.domainPrefix =
      (domainSplit req.host).2 := rfl
  have hname : (domainSplit req.host).1 =
      String.mk (req.host.data.takeWhile (fun x => x ≠ ':')) := by
    show (match stringIndexChar req.host ':' with
      | some i => String.mk (req.host.data.take i)
      | none => req.host) = _
    unfold stringIndexChar
    cases hfind : idxOfChar ':' req.host.data with
    | none =>
      have h := take_idxOfChar_eq_takeWhile ':' req.host.data
      rw [hfind] at h
      exact congrArg String.mk h
    | some i =>
      have h := take_idxOfChar_eq_takeWhile ':' req.host.data
      rw [hfind] at h
      exact congrArg String.mk h
  obtain ⟨r, rs, hsplit, hr, hrs⟩ := splitOnChar_spec '.' (domainSplit req.host).1.data
  refine ⟨hdn.trans hname, ?_, ?_⟩
  · intro hdot
    rw [hdn] at hdot
    have hrsne : rs ≠ [] := fun hnil => (hrs.mp hnil) hdot
    rw [hdp]
    show (match splitOnChar '.' (domainSplit req.host).1.data with
      | p :: _ :: _ => String.mk p
      | _ => (domainSplit req.host).1) = _
    cases rs with
    | nil => exact absurd rfl hrsne
    | cons r2 rs2 =>
      rw [hsplit]
      simp only []
      rw [hr, hdn]
  · intro hdot
    rw [hdn] at hdot
    have hrsnil : rs = [] := hrs.mpr hdot
    rw [hdp]
    show (match splitOnChar '.' (domainSplit req.host).1.data with
      | p :: _ :: _ => String.mk p
      | _ => (domainSplit req.host).1) = _
    rw [hsplit, hrsnil, hdn]

/-- Witness for C4: host `api.example.com:8443` yields domain name
`api.example.com` and prefix `api`; host `localhost` yields `localhost` for
both. -/
theorem domain_fields_witness :
    (buildEvent 0 "" sampleReq).requestContext.domainName = "api.example.com" ∧
    (buildEvent 0 "" sampleReq).requestContext.domainPrefix = "api" ∧
    (buildEvent 0 "" reqEmptySession).requestContext.domainName = "localhost" ∧
    (buildEvent 0 "" reqEmptySession).requestContext.domainPrefix = "localhost" := by
  have h1 := domain_fields 0 "" sampleReq
  have h2 := domain_fields 0 "" reqEmptySession
  have hn1 : (buildEvent 0 "" sampleReq).requestContext.domainName = "api.example.com" := by
    rw [h1.1]
    decide
  have hn2 : (buildEvent 0 "" reqEmptySession).requestContext.domainName = "localhost" := by
    rw [h2.1]
    decide
  refine ⟨hn1, ?_, hn2, ?_⟩
  · have := h1.2.1 (by rw [hn1]; decide)
    rw [this, hn1]
    decide
  · have := h2.2.2 (by rw [hn2]; decide)
    rw [this, hn2]

/-! ### Claim C5 -/

/-- C5 counterexample: with `x-session-id` present but holding the empty
string as first value, `identitySource` is the empty list, not a one-element
list. -/
theorem identitySource_empty_value_cex :
    lookupHeader reqEmptySession.headers "X-Session-Id" = some [""] ∧
    (buildEvent 0 "" reqEmptySession).identitySource = [] := by
  constructor
  · rfl
  · decide

/-- C5 (amended): the envelope's constants are `version = "2.0"`,
`type = "REQUEST"`, `accountId = apiId = stage = "local"`, `body = ""`,
`isBase64Encoded = false`; `identitySource` is `[v]` when the `x-session-id`
lookup yields a non-empty `v` and `[]` when it yields the empty string (so
also when the header is present with an empty first value). -/
theorem event_constants (now : Nat) (rid : String) (req : Request) :
    (buildEvent now rid req).version = "2.0" ∧
    (buildEvent now rid req).type = "REQUEST" ∧
    (buildEvent now rid req).requestContext.accountId = "local" ∧
    (buildEvent now rid req).requestContext.apiId = "local" ∧
    (buildEvent now rid req).requestContext.stage = "local" ∧
    (buildEvent now rid req).body = "" ∧
    (buildEvent now rid req).isBase64Encoded = false ∧
    (headerGet req.headers "x-session-id" = "" →
      (buildEvent now rid req).identitySource = []) ∧
    (∀ v, headerGet req.headers "x-session-id" = v → v ≠ "" →
      (buildEvent now rid req).identitySource = [v]) := by
  refine ⟨rfl, rfl, rfl, rfl, rfl, rfl, rfl, ?_, ?_⟩
  · intro h
    show (if headerGet req.headers "x-session-id" ≠ "" then
        [headerGet req.headers "x-session-id"] else []) = []
    rw [h]
    simp
  · intro v hv hne
    show (if headerGet req.headers "x-session-id" ≠ "" then
        [headerGet req.headers "x-session-id"] else []) = [v]
    rw [hv]
    simp [hne]

/-- Witness for C5 (amended) at a request carrying `x-session-id: sess-42`. -/
theorem event_constants_witness :
    (buildEvent 0 "" sampleReq).identitySource = ["sess-42"] :=
  (event_constants 0 "" sampleReq).2.2.2.2.2.2.2.2 "sess-42" (by decide) (by decide)

/-! ### Claim C10 -/

/-- C10: when `x-session-id` is present, only its first value is used:
`identitySource = [v]` for a non-empty first value `v` (later values are
ignored, not comma-joined), and `identitySource = []` for an empty first
value, exactly as when the header is absent. -/
theorem identitySource_first_value (now : Nat) (rid : String) (req : Request)
    (v : String) (vs : List String)
    (h : lookupHeader req.headers "X-Session-Id" = some (v :: vs)) :
    (v ≠ "" → (buildEvent now rid req).identitySource = [v]) ∧
    (v = "" → (buildEvent now rid req).identitySource = []) := by
  have hck : canonicalKey "x-session-id" = "X-Session-Id" := by decide
  have hget : headerGet req.headers "x-session-id" = v := by
    unfold headerGet
    rw [hck, h]
  constructor
  · intro hne
    show (if headerGet req.headers "x-session-id" ≠ "" then
        [headerGet req.headers "x-session-id"] else []) = [v]
    rw [hget]
    simp [hne]
  · intro he
    show (if headerGet req.headers "x-session-id" ≠ "" then
        [headerGet req.headers "x-session-id"] else []) = []
    rw [hget, he]
    simp

/-- Witness for C10: two session values keep only the first; an empty first
value gives the empty list. -/
theorem identitySource_first_value_witness :
    (buildEvent 0 "" reqMultiSession).identitySource = ["sess-a"] ∧
    (buildEvent 0 "" reqEmptySession).identitySource = [] :=
  ⟨(identitySource_first_value 0 "" reqMultiSession "sess-a" ["sess-b"] rfl).1
      (by decide),
   (identitySource_first_value 0 "" reqEmptySession "" [] rfl).2 rfl⟩

/-! ### Claim C8 -/

/-- C8: one instant `now` feeds both timing fields: `timeEpoch` is
`now / 1e6` (milliseconds since epoch) and `time` is the RFC 3339 `Z`-suffixed
rendering of the second `timeEpoch / 1000`, so the two fields encode the same
instant. -/
theorem time_fields (now : Nat) (rid : String) (req : Request) :
    (buildEvent now rid req).requestContext.timeEpoch = ((now / 1000000 : Nat) : Int) ∧
    (buildEvent now rid req).requestContext.time =
      rfc3339OfSecond ((buildEvent now rid req).requestContext.timeEpoch.toNat / 1000) ∧
    ∃ p : String, (buildEvent now rid req).requestContext.time = p ++ "Z" := by
  refine ⟨rfl, ?_, ?_⟩
  · show rfc3339OfSecond (now / 1000000000) =
      rfc3339OfSecond ((((now : Int)) / 1000000).toNat / 1000)
    have h1 : (((now : Int)) / 1000000).toNat = now / 1000000 := rfl
    rw [h1]
    have h2 : now / 1000000 / 1000 = now / 1000000000 := by
      rw [Nat.div_div_eq_div_mul]
    rw [h2]
  · exact ⟨_, rfl⟩

/-! ### Claim C6 -/

/-- Lowercase hexadecimal digit test. -/
def isHexChar (c : Char) : Bool :=
  (('0' ≤ c && c ≤ '9') || ('a' ≤ c && c ≤ 'f'))

theorem isHexChar_hexDigit : ∀ n, n < 16 → isHexChar (hexDigit n) = true := by decide

theorem land15_lt (n : Nat) : n.land 15 < 16 :=
  Nat.lt_succ_of_le (Nat.and_le_right)

theorem land63_lt (n : Nat) : n.land 63 < 64 :=
  Nat.lt_succ_of_le (Nat.and_le_right)

theorem setVersionBits_div16 (n : Nat) : setVersionBits n / 16 = 4 :=
  (by decide : ∀ y < 16, y.lor 64 / 16 = 4) _ (land15_lt n)

theorem setVersionBits_lt (n : Nat) : setVersionBits n < 256 :=
  (by decide : ∀ y < 16, y.lor 64 < 256) _ (land15_lt n)

theorem setVariantBits_div64 (n : Nat) : setVariantBits n / 64 = 2 :=
  (by decide : ∀ y < 64, y.lor 128 / 64 = 2) _ (land63_lt n)

theorem setVariantBits_lt (n : Nat) : setVariantBits n < 256 :=
  (by decide : ∀ y < 64, y.lor 128 < 256) _ (land63_lt n)

theorem setVariantBits_div16 (n : Nat) :
    setVariantBits n / 16 = 8 ∨ setVariantBits n / 16 = 9 ∨
    setVariantBits n / 16 = 10 ∨ setVariantBits n / 16 = 11 :=
  (by decide : ∀ y < 64, (y.lor 128 / 16 = 8 ∨ y.lor 128 / 16 = 9 ∨
    y.lor 128 / 16 = 10 ∨ y.lor 128 / 16 = 11)) _ (land63_lt n)

theorem timeByte_lt (t : Int) (i : Nat) : timeByte t i < 256 := by
  unfold timeByte
  have h0 : (0 : Int) < 256 := by decide
  have h1 : (t.fdiv (2 ^ (i * 8))) % 256 < 256 := Int.emod_lt_of_pos _ h0
  have h2 : 0 ≤ (t.fdiv (2 ^ (i * 8))) % 256 := Int.emod_nonneg _ (by decide)
  omega

theorem byteHex_all_hex (x : Nat) (hx : x < 256) : (byteHex x).all isHexChar = true := by
  have h1 : x / 16 < 16 := Nat.div_lt_of_lt_mul (by omega)
  have h2 : x % 16 < 16 := Nat.mod_lt _ (by omega)
  simp [byteHex, isHexChar_hexDigit _ h1, isHexChar_hexDigit _ h2]

theorem uuidString_spec (b : Fin 16 → Nat) (hb : ∀ i, b i < 256) :
    ∃ g1 g2 g3 g4 g5 : List Char,
      (String.mk (uuidChars b)).data =
        g1 ++ ['-'] ++ g2 ++ ['-'] ++ g3 ++ ['-'] ++ g4 ++ ['-'] ++ g5 ∧
      g1.length = 8 ∧ g2.length = 4 ∧ g3.length = 4 ∧ g4.length = 4 ∧
      g5.length = 12 ∧
      (String.mk (uuidChars b)).length = 36 ∧
      ((g1 ++ g2 ++ g3 ++ g4 ++ g5).all isHexChar) = true ∧
      g3.head? = some '4' ∧
      (g4.head? = some '8' ∨ g4.head? = some '9' ∨ g4.head? = some 'a' ∨
        g4.head? = some 'b') := by
  have hver : setVersionBits (b 6) < 256 := setVersionBits_lt _
  have hvar : setVariantBits (b 8) < 256 := setVariantBits_lt _
  refine ⟨byteHex (b 0) ++ byteHex (b 1) ++ byteHex (b 2) ++ byteHex (b 3),
          byteHex (b 4) ++ byteHex (b 5),
          byteHex (setVersionBits (b 6)) ++ byteHex (b 7),
          byteHex (setVariantBits (b 8)) ++ byteHex (b 9),
          byteHex (b 10) ++ byteHex (b 11) ++ byteHex (b 12) ++ byteHex (b 13) ++
            byteHex (b 14) ++ byteHex (b 15),
          ?_, ?_, ?_, ?_, ?_, ?_, ?_, ?_, ?_, ?_⟩
  · show uuidChars b = _
    simp [uuidChars, List.append_assoc]
  · simp [byteHex]
  · simp [byteHex]
  · simp [byteHex]
  · simp [byteHex]
  · simp [byteHex]
  · show (uuidChars b).length = 36
    simp [uuidChars, byteHex]
  · simp only [List.all_append,
      byteHex_all_hex (b 0) (hb 0), byteHex_all_hex (b 1) (hb 1),
      byteHex_all_hex (b 2) (hb 2), byteHex_all_hex (b 3) (hb 3),
      byteHex_all_hex (b 4) (hb 4), byteHex_all_hex (b 5) (hb 5),
      byteHex_all_hex (b 7) (hb 7), byteHex_all_hex (b 9) (hb 9),
      byteHex_all_hex (b 10) (hb 10), byteHex_all_hex (b 11) (hb 11),
      byteHex_all_hex (b 12) (hb 12), byteHex_all_hex (b 13) (hb 13),
      byteHex_all_hex (b 14) (hb 14), byteHex_all_hex (b 15) (hb 15),
      byteHex_all_hex _ hver, byteHex_all_hex _ hvar, Bool.and_true]
  · show (byteHex (setVersionBits (b 6)) ++ byteHex (b 7)).head? = some '4'
    simp only [byteHex, List.cons_append, List.head?_cons, setVersionBits_div16]
    decide
  · show (byteHex (setVariantBits (b 8)) ++ byteHex (b 9)).head? = some '8' ∨ _ ∨ _ ∨ _
    rcases setVariantBits_div16 (b 8) with h | h | h | h
    · left
      simp only [byteHex, List.cons_append, List.head?_cons, h]
      decide
    · right
      left
      simp only [byteHex, List.cons_append, List.head?_cons, h]
      decide
    · right
      right
      left
      simp only [byteHex, List.cons_append, List.head?_cons, h]
      decide
    · right
      right
      right
      simp only [byteHex, List.cons_append, List.head?_cons, h]
      decide

/-- C6: every string `generateUUID` returns — random path and timestamp
fallback alike — is 36 characters in the `8-4-4-4-12` hyphen-separated
lowercase-hex layout, the version nibble (character 14, the high nibble of
byte 6) is `4`, and the variant nibble (character 19, the high nibble of byte
8, whose top two bits are `10`) is one of `8`, `9`, `a`, `b`. -/
theorem generateUUID_format (randOk : Bool) (rb : Fin 16 → Fin 256) (t : Int) :
    (∃ g1 g2 g3 g4 g5 : List Char,
      (generateUUID randOk rb t).data =
        g1 ++ ['-'] ++ g2 ++ ['-'] ++ g3 ++ ['-'] ++ g4 ++ ['-'] ++ g5 ∧
      g1.length = 8 ∧ g2.length = 4 ∧ g3.length = 4 ∧ g4.length = 4 ∧
      g5.length = 12 ∧
      (generateUUID randOk rb t).length = 36 ∧
      ((g1 ++ g2 ++ g3 ++ g4 ++ g5).all isHexChar) = true ∧
      g3.head? = some '4' ∧
      (g4.head? = some '8' ∨ g4.head? = some '9' ∨ g4.head? = some 'a' ∨
        g4.head? = some 'b')) ∧
    (∀ n, setVersionBits n / 16 = 4) ∧
    (∀ n, setVariantBits n / 64 = 2) := by
  refine ⟨?_, setVersionBits_div16, setVariantBits_div64⟩
  cases randOk with
  | true => exact uuidString_spec (fun i => (rb i).val) (fun i => (rb i).isLt)
  | false => exact uuidString_spec (fun i => timeByte t i.val) (fun i => timeByte_lt t i.val)

end LambdaRT
